import Mathlib

/-!
Shallow embedding of the MLDeform runtime engine
(`MLDeform/_maya/deformer.py`): the normalization codec, the model
registry with its dirty-flag cache, the inference dispatcher loop of
`MLDeformerNode.deform`, and the delta blender.

Modelling conventions:
* Finite float values are modelled as rationals (`ℚ`); rounding is not
  modelled.  The one place where IEEE special values matter to the code
  — the zero-width-bounds division in `normalize_transform` followed by
  `np.nan_to_num` — is modelled exactly, with an extended value type
  `FVal` carrying NaN and the two infinities and with the numpy
  semantics of division by (positive) zero and of `nan_to_num`.
* numpy arrays are modelled as `List ℚ`; the flat delta buffer is
  modelled as a total function `ℕ → ℚ` (the buffer allocated at line
  132 of deformer.py is `np.zeros(3 * numVertices)`, so position `j`
  of the function stands for `deltas[j]`).
* The TensorFlow graph/session/tensor machinery is external to the
  engine; a loaded network is abstracted as its input/output function
  `predict : List ℚ → List ℚ`.
* The filesystem is a map `String → Option ManifestData`: `none` means
  `os.path.exists` is false at that path, `some d` means the file
  exists and parses to the document `d`.
-/

namespace MLDeform

/-- Extended numeric value: a finite value, +Inf, -Inf or NaN.  Finite
values are rationals (exact, no rounding). -/
inductive FVal where
  | fin (q : ℚ)
  | pinf
  | ninf
  | nan
deriving DecidableEq

/-- Largest finite IEEE double, `np.finfo(np.float64).max = 2^1024 - 2^971`.
`np.nan_to_num` substitutes this value (not 0) for +Inf. -/
def floatMax : ℚ := 2 ^ 1024 - 2 ^ 971

/-- Division of two finite values with the IEEE/numpy special cases for a
zero denominator (the denominator produced by `t_max - t_min` is +0 when
the bounds coincide): `0/0 = NaN`, `q/0 = ±Inf` by the sign of `q`. -/
def fdiv (a b : ℚ) : FVal :=
  if b ≠ 0 then .fin (a / b)
  else if a = 0 then .nan
  else if 0 < a then .pinf
  else .ninf

/-- `np.nan_to_num` with its default arguments: NaN becomes 0, +Inf becomes
the largest finite double and -Inf its negative; finite values pass through. -/
def nan_to_num (v : FVal) : ℚ :=
  match v with
  | .fin q => q
  | .pinf => floatMax
  | .ninf => -floatMax
  | .nan => 0

/-- The `TFModel` named tuple of deformer.py (line 22).  `graph`,
`session`, `input_tensor` and `output_tensor` are abstracted into the
single inference function `predict`; in the Python code the four bound
lists hold `None` when `normalized` is false — here they are plain lists
that are only ever read when `normalized` is true. -/
structure TFModel where
  predict : List ℚ → List ℚ
  vertices : List ℕ
  normalized : Bool
  trans_max : List ℚ
  trans_min : List ℚ
  verts_max : List ℚ
  verts_min : List ℚ

/-- Python slice assignment `l[start : start + vals.length] = vals`. -/
def setSlice (l : List ℚ) (start : ℕ) (vals : List ℚ) : List ℚ :=
  l.take start ++ vals ++ l.drop (start + vals.length)

/-- The new contents computed for the last three slots of the array by
`normalize_transform` (deformer.py lines 88-93): `trans = array[-3:]`,
then `(trans - t_min) / (t_max - t_min)` element-wise, then
`np.nan_to_num`. -/
def normalizedTrans (array : List ℚ) (model : TFModel) : List ℚ :=
  let trans := array.drop (array.length - 3)
  (trans.zip (model.trans_max.zip model.trans_min)).map
    (fun p => nan_to_num (fdiv (p.1 - p.2.2) (p.2.1 - p.2.2)))

/-- `MLDeformerNode.normalize_transform` (deformer.py lines 82-96),
run to completion: the first component of the result is the returned
array, the second is the contents of the array object of the caller after
the call.  Line 95 (`array[-3:] = trans`) assigns through the input
reference, and line 96 returns that same object, so both components
are the input with its last three slots overwritten. -/
def normalize_transform_run (array : List ℚ) (model : TFModel) :
    List ℚ × List ℚ :=
  let result := setSlice array (array.length - 3) (normalizedTrans array model)
  (result, result)

/-- The value returned by `normalize_transform`. -/
def normalize_transform (array : List ℚ) (model : TFModel) : List ℚ :=
  (normalize_transform_run array model).1

/-- `MLDeformerNode.denormalize_prediction` (deformer.py lines 98-109),
run to completion: returned value and contents of the input array of the caller
after the call.  The body only rebinds the local name `prediction`
(`prediction * (v_max - v_min) + v_min` allocates a fresh array), so the
input object is left untouched. -/
def denormalize_prediction_run (prediction : List ℚ) (model : TFModel) :
    List ℚ × List ℚ :=
  let result := (prediction.zip (model.verts_max.zip model.verts_min)).map
    (fun p => nan_to_num (.fin (p.1 * (p.2.1 - p.2.2) + p.2.2)))
  (result, prediction)

/-- The value returned by `denormalize_prediction`. -/
def denormalize_prediction (prediction : List ℚ) (model : TFModel) : List ℚ :=
  (denormalize_prediction_run prediction model).1

/-! ## Inference dispatcher (deformer.py lines 130-181) -/

/-- numpy slice assignment into the flat delta buffer, line 181:
`deltas[vtx * 3 : (vtx * 3) + 3] = prediction[index * 3 : (index * 3) + 3]`,
where the buffer is modelled as a total function on flat indices. -/
def writeDeltaSlice (deltas : ℕ → ℚ) (vtx : ℕ) (prediction : ℕ → ℚ)
    (index : ℕ) : ℕ → ℚ :=
  fun j =>
    if vtx * 3 ≤ j ∧ j < vtx * 3 + 3 then prediction (index * 3 + (j - vtx * 3))
    else deltas j

/-- The scatter loop of lines 180-181, `for index, vtx in
enumerate(model.vertices)`, with `index` starting at the given value
(`0` at the call site): each iteration overwrites the slice of the
delta buffer at `vtx` with the slice of the prediction at `index`. -/
def scatterAux (deltas : ℕ → ℚ) (vertices : List ℕ) (prediction : ℕ → ℚ)
    (index : ℕ) : ℕ → ℚ :=
  match vertices with
  | [] => deltas
  | vtx :: rest =>
      scatterAux (writeDeltaSlice deltas vtx prediction index) rest prediction
        (index + 1)

/-- The scatter loop as executed, with the enumeration starting at 0. -/
def scatterSlot (deltas : ℕ → ℚ) (vertices : List ℕ)
    (prediction : ℕ → ℚ) : ℕ → ℚ :=
  scatterAux deltas vertices prediction 0

/-- Lines 160-177 for an active slot: normalize the transform values when
the model is normalized, run the network, denormalize the prediction when
the model is normalized. -/
def slotPrediction (model : TFModel) (values : List ℚ) : List ℚ :=
  let values := if model.normalized then normalize_transform values model
                else values
  let prediction := model.predict values
  if model.normalized then denormalize_prediction prediction model
  else prediction

/-- One iteration of the joint loop of `deform` (lines 134-181) for joint
index `i`: skip when `i >= len(self.models)` (line 136) or when the slot
holds no model (line 141); otherwise read the transform for `i`, run the
prediction pipeline and scatter it into the delta buffer. -/
def deformStep (models : List (Option TFModel)) (transforms : List (List ℚ))
    (deltas : ℕ → ℚ) (i : ℕ) : ℕ → ℚ :=
  if models.length ≤ i then deltas
  else
    match models.getD i none with
    | none => deltas
    | some model =>
        scatterSlot deltas model.vertices
          (fun n => (slotPrediction model (transforms.getD i [])).getD n 0)

/-- Lines 130-181: the delta buffer is freshly zero-initialised
(`np.zeros(3 * meshFn.numVertices())`, line 132) and the joint loop runs
over `i in range(matricesCount)`.  Only flat indices below
`3 * numVertices` correspond to buffer cells; the loop never consults the
vertex count. -/
def computeDeltas (models : List (Option TFModel))
    (transforms : List (List ℚ)) : ℕ → ℚ :=
  (List.range transforms.length).foldl (deformStep models transforms)
    (fun _ => 0)

/-! ## Delta blender (deformer.py lines 184-196) -/

/-- A mesh point. -/
structure Vec3 where
  x : ℚ
  y : ℚ
  z : ℚ
deriving DecidableEq

/-- Lines 185-195 for the vertex at iterator index `index`: read the
three-component slice of the delta buffer, scale each component by
`envelope` and by the painted `weight` of the vertex, and add the result
to the current position. -/
def blendVertex (deltas : ℕ → ℚ) (envelope : ℚ) (weight : ℚ) (index : ℕ)
    (pos : Vec3) : Vec3 :=
  ⟨pos.x + deltas (index * 3) * envelope * weight,
   pos.y + deltas (index * 3 + 1) * envelope * weight,
   pos.z + deltas (index * 3 + 2) * envelope * weight⟩

/-- The geometry pass of `deform` (lines 119-196): compute the delta
buffer from the loaded models and the supplied joint transforms, then
walk the mesh iterator in order (vertex `v` at list position `v`) and
offset every position.  `weights v` is `self.weightValue(data,
geometryIndex, v)`. -/
def deformMesh (models : List (Option TFModel)) (transforms : List (List ℚ))
    (envelope : ℚ) (weights : ℕ → ℚ) (positions : List Vec3) : List Vec3 :=
  let deltas := computeDeltas models transforms
  (positions.enum).map (fun kv => blendVertex deltas envelope (weights kv.1) kv.1 kv.2)

/-! ## Model registry and cache state machine
(deformer.py lines 35-39, 111-117, 198-267) -/

/-- One non-null entry of the `models` list of the manifest document.
`meta`, `root`, `input` and `output` locate and name the TensorFlow
artifact; restoring it yields the inference function, which the
embedding carries directly as `predict` (artifact resolution is the
external TensorFlow collaborator and is modelled as always succeeding). -/
structure SlotData where
  predict : List ℚ → List ℚ
  normalized : Bool
  trans_max : List ℚ
  trans_min : List ℚ
  verts_max : List ℚ
  verts_min : List ℚ

/-- The parsed manifest JSON document.  `models = none` models a document
without a `models` key (the check for a missing models key at line 226);
`joint_map` is the parallel list of vertex-index lists. -/
structure ManifestData where
  models : Option (List (Option SlotData))
  joint_map : List (List ℕ)

/-- The filesystem seen by `loadModels`: `none` at a path means
`os.path.exists` is false there, `some d` means the file exists and
`json.load` yields `d`. -/
def FileSystem : Type := String → Option ManifestData

/-- The loop body of lines 231-267, for the suffix of the slot list that
starts at slot index `i`: null slots append `None` (lines 232-234); for a
bound slot, line 235 reads the joint_map entry at `i`, which raises
`IndexError` when `joint_map` has no entry there — the models appended
before the raise remain on the node.  Returns the (possibly partial)
model list and whether an exception escaped the loop; bound slots carry
the vertex list and normalization bounds verbatim. -/
def buildModelsAux (joint_map : List (List ℕ)) :
    List (Option SlotData) → ℕ → List (Option TFModel) × Bool
  | [], _ => ([], false)
  | none :: rest, i =>
      let r := buildModelsAux joint_map rest (i + 1)
      (none :: r.1, r.2)
  | some slot :: rest, i =>
      match joint_map[i]? with
      | none => ([], true)
      | some vertices =>
          let r := buildModelsAux joint_map rest (i + 1)
          (some { predict := slot.predict
                  vertices := vertices
                  normalized := slot.normalized
                  trans_max := slot.trans_max
                  trans_min := slot.trans_min
                  verts_max := slot.verts_max
                  verts_min := slot.verts_min } :: r.1, r.2)

/-- The whole loop of lines 231-267, `for i, model in enumerate(models)`:
the built model list (partial if line 235 raised `IndexError` part-way)
and whether that exception escaped. -/
def buildModels (slots : List (Option SlotData)) (joint_map : List (List ℕ)) :
    List (Option TFModel) × Bool :=
  buildModelsAux joint_map slots 0

/-- The mutable state of an `MLDeformerNode` instance that the registry
claims are about: the cached manifest path, the dirty flag and the
loaded model list (deformer.py lines 37-39). -/
structure DeformerState where
  data_location : Option String
  location_changed : Bool
  models : List (Option TFModel)

/-- The state established by `__init__` (lines 35-39): no cached path,
dirty, no models. -/
def initState : DeformerState :=
  { data_location := none, location_changed := true, models := [] }

/-- `MLDeformerNode.preEvaluation` (lines 198-202): when the host reports
a dirty plug on the trainingData attribute, mark the location changed.
`dirtyDataLoc` is `evaluationNode.dirtyPlugExists(MLDeformerNode.data_loc)`. -/
def preEvaluation (s : DeformerState) (dirtyDataLoc : Bool) : DeformerState :=
  if dirtyDataLoc then { s with location_changed := true } else s

/-- `MLDeformerNode.setDependentsDirty` (lines 204-208): when the dirtied
plug is the trainingData attribute, mark the location changed.
`plugIsDataLoc` is `plug == MLDeformerNode.data_loc`. -/
def setDependentsDirty (s : DeformerState) (plugIsDataLoc : Bool) :
    DeformerState :=
  if plugIsDataLoc then { s with location_changed := true } else s

/-- `MLDeformerNode.loadModels` (lines 210-267) as a state transformer.
The second component records whether an uncaught exception escapes to the
caller.  Control flow of the source, in order:
line 213 sets `self.data_location = None` and line 214 sets
`self.models = []`; line 216 compares `path` with the just-reset
`data_location` (so the early return can never fire for a string path);
lines 219-220 log an error when the path does not exist but do NOT
return; line 222 caches the path; line 223 then calls `open(path)`,
which raises `IOError` when the file does not exist; lines 226-228
return after logging when the document has no `models` key; lines
230-267 rebuild the model list, with line 235 raising `IndexError` out
of the method when a bound slot has no joint_map entry (the partially
rebuilt list remains on the node). -/
def loadModels (fs : FileSystem) (s : DeformerState) (path : String) :
    DeformerState × Bool :=
  let s := { s with data_location := none, models := [] }
  if some path = s.data_location then (s, false)
  else
    match fs path with
    | none => ({ s with data_location := some path }, true)
    | some data =>
        let s := { s with data_location := some path }
        match data.models with
        | none => (s, false)
        | some slots =>
            let r := buildModels slots data.joint_map
            ({ s with models := r.1 }, r.2)

/-- The cache-check prologue of `deform` (lines 112-117): when the
location changed, clear the flag and reload from the current value of
the trainingData attribute; otherwise leave the state alone.  The
second component again records whether an exception escapes (aborting
the rest of the evaluation). -/
def evaluateLoad (fs : FileSystem) (s : DeformerState) (pathAttr : String) :
    DeformerState × Bool :=
  if s.location_changed then
    loadModels fs { s with location_changed := false } pathAttr
  else (s, false)

/-- A full evaluation of the node (`deform`, lines 111-196): run the
cache prologue, and unless it raised, run the dispatcher and blender
over the resulting model list.  When the prologue raises, the geometry
is left untouched (the exception aborts `deform`). -/
def evaluateNode (fs : FileSystem) (s : DeformerState) (pathAttr : String)
    (transforms : List (List ℚ)) (envelope : ℚ) (weights : ℕ → ℚ)
    (positions : List Vec3) : DeformerState × Bool × List Vec3 :=
  let r := evaluateLoad fs s pathAttr
  if r.2 then (r.1, true, positions)
  else (r.1, false, deformMesh r.1.models transforms envelope weights positions)

/-! ## Concrete instances used to evaluate the definitions -/

/-- A loaded model owning vertex 5 whose network always predicts `[1,2,3]`. -/
def modelA : TFModel :=
  { predict := fun _ => [1, 2, 3], vertices := [5], normalized := false,
    trans_max := [], trans_min := [], verts_max := [], verts_min := [] }

/-- A loaded model owning vertex 5 whose network always predicts `[4,5,6]`. -/
def modelB : TFModel :=
  { predict := fun _ => [4, 5, 6], vertices := [5], normalized := false,
    trans_max := [], trans_min := [], verts_max := [], verts_min := [] }

/-- A loaded model owning vertex 1 whose network always predicts `[7,8,9]`. -/
def modelC : TFModel :=
  { predict := fun _ => [7, 8, 9], vertices := [1], normalized := false,
    trans_max := [], trans_min := [], verts_max := [], verts_min := [] }

/-- A normalized model with translation bounds `[0,10]` on every axis. -/
def boundsModel : TFModel :=
  { predict := fun _ => [], vertices := [], normalized := true,
    trans_max := [10, 10, 10], trans_min := [0, 0, 0],
    verts_max := [], verts_min := [] }

/-- A normalized model with zero-width translation bounds on every axis. -/
def degenModel : TFModel :=
  { predict := fun _ => [], vertices := [], normalized := true,
    trans_max := [0, 0, 0], trans_min := [0, 0, 0],
    verts_max := [], verts_min := [] }

/-- A manifest slot whose restored network always predicts `[4,5,6]`. -/
def slotB : SlotData :=
  { predict := fun _ => [4, 5, 6], normalized := false,
    trans_max := [], trans_min := [], verts_max := [], verts_min := [] }

/-- A filesystem with no files at all. -/
def emptyFS : FileSystem := fun _ => none

/-- A filesystem with a single manifest at `manifest.json` binding one slot
(`slotB`) to vertex 5. -/
def oneFileFS : FileSystem :=
  fun p => if p = "manifest.json" then
    some { models := some [some slotB], joint_map := [[5]] }
  else none

/-- A clean registry state that has `manifest.json` cached with one loaded
model (`modelC`, owning vertex 1). -/
def cachedState : DeformerState :=
  { data_location := some "manifest.json", location_changed := false,
    models := [some modelC] }

/-! ## Helper lemmas about the scatter and dispatch loops -/

theorem writeDeltaSlice_of_ne {d : ℕ → ℚ} {vtx : ℕ} {pred : ℕ → ℚ} {idx j : ℕ}
    (h : j / 3 ≠ vtx) : writeDeltaSlice d vtx pred idx j = d j := by
  unfold writeDeltaSlice
  rw [if_neg]
  omega

theorem writeDeltaSlice_of_le {d : ℕ → ℚ} {vtx : ℕ} {pred : ℕ → ℚ} {idx j : ℕ}
    (h1 : vtx * 3 ≤ j) (h2 : j < vtx * 3 + 3) :
    writeDeltaSlice d vtx pred idx j = pred (idx * 3 + (j - vtx * 3)) := by
  unfold writeDeltaSlice
  rw [if_pos ⟨h1, h2⟩]

theorem scatterAux_cons (d : ℕ → ℚ) (vtx : ℕ) (rest : List ℕ) (pred : ℕ → ℚ)
    (idx : ℕ) :
    scatterAux d (vtx :: rest) pred idx =
      scatterAux (writeDeltaSlice d vtx pred idx) rest pred (idx + 1) := rfl

/-- A flat position whose vertex is not in the list is untouched by the
scatter loop. -/
theorem scatterAux_not_mem {vertices : List ℕ} {j : ℕ} (h : j / 3 ∉ vertices)
    (d : ℕ → ℚ) (pred : ℕ → ℚ) (idx : ℕ) :
    scatterAux d vertices pred idx j = d j := by
  induction vertices generalizing d idx with
  | nil => rfl
  | cons vtx rest ih =>
      rw [scatterAux_cons]
      rw [ih (fun hm => h (List.mem_cons_of_mem _ hm))]
      exact writeDeltaSlice_of_ne (fun he => h (he ▸ List.mem_cons_self _ _))

/-- The scatter loop realises last-write-wins: if position `p` holds `v`
and `v` does not occur later in the list, the final buffer carries the
prediction slice for `p`. -/
theorem scatterAux_last {vertices : List ℕ} {v p : ℕ}
    (hp : p < vertices.length) (hv : vertices.getD p 0 = v)
    (hlast : v ∉ vertices.drop (p + 1)) {r : ℕ} (hr : r < 3)
    (d : ℕ → ℚ) (pred : ℕ → ℚ) (idx : ℕ) :
    scatterAux d vertices pred idx (v * 3 + r) = pred ((idx + p) * 3 + r) := by
  induction vertices generalizing d idx p with
  | nil => simp at hp
  | cons vtx rest ih =>
      rw [scatterAux_cons]
      cases p with
      | zero =>
          have hvtx : vtx = v := by simpa using hv
          subst hvtx
          have hdiv : (vtx * 3 + r) / 3 = vtx := by omega
          rw [scatterAux_not_mem (by rw [hdiv]; simpa using hlast)]
          rw [writeDeltaSlice_of_le (by omega) (by omega)]
          congr 1
          omega
      | succ q =>
          have h1 : q < rest.length := by simpa using hp
          have h2 : rest.getD q 0 = v := by simpa using hv
          have h3 : v ∉ rest.drop (q + 1) := by simpa using hlast
          rw [ih h1 h2 h3]
          congr 1
          omega

theorem foldl_preserves_point {step : (ℕ → ℚ) → ℕ → ℕ → ℚ} {j : ℕ}
    (L : List ℕ) (d : ℕ → ℚ) (h : ∀ i ∈ L, ∀ e, step e i j = e j) :
    (L.foldl step d) j = d j := by
  induction L generalizing d with
  | nil => rfl
  | cons i rest ih =>
      rw [List.foldl_cons, ih _ (fun a ha e => h a (List.mem_cons_of_mem _ ha) e)]
      exact h i (List.mem_cons_self _ _) d

theorem foldl_id_of {step : (ℕ → ℚ) → ℕ → ℕ → ℚ}
    (L : List ℕ) (d : ℕ → ℚ) (h : ∀ i ∈ L, ∀ e, step e i = e) :
    L.foldl step d = d := by
  induction L generalizing d with
  | nil => rfl
  | cons i rest ih =>
      rw [List.foldl_cons, h i (List.mem_cons_self _ _) d]
      exact ih _ (fun a ha e => h a (List.mem_cons_of_mem _ ha) e)

theorem foldl_congr_step {step1 step2 : (ℕ → ℚ) → ℕ → ℕ → ℚ}
    (L : List ℕ) (d : ℕ → ℚ) (h : ∀ i ∈ L, ∀ e, step1 e i = step2 e i) :
    L.foldl step1 d = L.foldl step2 d := by
  induction L generalizing d with
  | nil => rfl
  | cons i rest ih =>
      rw [List.foldl_cons, List.foldl_cons, h i (List.mem_cons_self _ _) d]
      exact ih _ (fun a ha e => h a (List.mem_cons_of_mem _ ha) e)

/-- Lines 136-142: a joint index with no model slot, or with an empty
slot, leaves the delta buffer untouched. -/
theorem deformStep_skip (models : List (Option TFModel))
    (transforms : List (List ℚ)) (d : ℕ → ℚ) (i : ℕ)
    (h : models.length ≤ i ∨ models.getD i none = none) :
    deformStep models transforms d i = d := by
  unfold deformStep
  rcases h with h | h
  · rw [if_pos h]
  · split
    · rfl
    · rw [h]

theorem deformStep_active (models : List (Option TFModel))
    (transforms : List (List ℚ)) (d : ℕ → ℚ) (i : ℕ) (m : TFModel)
    (hi : i < models.length) (hm : models.getD i none = some m) :
    deformStep models transforms d i =
      scatterSlot d m.vertices
        (fun n => (slotPrediction m (transforms.getD i [])).getD n 0) := by
  unfold deformStep
  rw [if_neg (by omega), hm]

theorem deformStep_preserves_of_not_mem (models : List (Option TFModel))
    (transforms : List (List ℚ)) {v i : ℕ}
    (h : ∀ m, models.getD i none = some m → v ∉ m.vertices)
    {r : ℕ} (hr : r < 3) (d : ℕ → ℚ) :
    deformStep models transforms d i (v * 3 + r) = d (v * 3 + r) := by
  by_cases hi : models.length ≤ i
  · rw [deformStep_skip _ _ _ _ (Or.inl hi)]
  · cases hm : models.getD i none with
    | none => rw [deformStep_skip _ _ _ _ (Or.inr hm)]
    | some m =>
        rw [deformStep_active _ _ _ _ m (by omega) hm]
        unfold scatterSlot
        exact scatterAux_not_mem (by have : (v * 3 + r) / 3 = v := by omega
                                     rw [this]; exact h m hm) _ _ _

/-- The delta at vertex `v` after the whole joint loop equals the
prediction of the slot that writes it last. -/
theorem computeDeltas_last_writer (models : List (Option TFModel))
    (transforms : List (List ℚ)) {k v p : ℕ} {mk : TFModel}
    (hkt : k < transforms.length) (hkm : k < models.length)
    (hmk : models.getD k none = some mk)
    (hp : p < mk.vertices.length) (hv : mk.vertices.getD p 0 = v)
    (hlast : v ∉ mk.vertices.drop (p + 1))
    (hlater : ∀ i m, k < i → models.getD i none = some m → v ∉ m.vertices)
    {r : ℕ} (hr : r < 3) :
    computeDeltas models transforms (v * 3 + r) =
      (slotPrediction mk (transforms.getD k [])).getD (p * 3 + r) 0 := by
  unfold computeDeltas
  rw [show List.range transforms.length =
        List.range (k + 1) ++
          (List.range (transforms.length - (k + 1))).map ((k + 1) + ·) by
      rw [← List.range_add]; congr 1; omega]
  rw [List.foldl_append]
  rw [foldl_preserves_point _ _ (fun i hi e => by
    simp only [List.mem_map, List.mem_range] at hi
    obtain ⟨a, _, rfl⟩ := hi
    exact deformStep_preserves_of_not_mem models transforms
      (fun m hm => hlater _ m (by omega) hm) hr e)]
  rw [List.range_succ, List.foldl_append, List.foldl_cons, List.foldl_nil]
  rw [deformStep_active _ _ _ _ mk hkm hmk]
  unfold scatterSlot
  rw [scatterAux_last hp hv hlast hr]
  simp

/-- Reading the blended mesh at a valid index selects the blend of that
delta slice of that index with its own paint weight and position. -/
theorem deformMesh_getD (models : List (Option TFModel))
    (transforms : List (List ℚ)) (envelope : ℚ) (weights : ℕ → ℚ)
    (positions : List Vec3) {v : ℕ} (h : v < positions.length) :
    (deformMesh models transforms envelope weights positions).getD v ⟨0, 0, 0⟩ =
      blendVertex (computeDeltas models transforms) envelope (weights v) v
        (positions.getD v ⟨0, 0, 0⟩) := by
  unfold deformMesh
  rw [List.getD_eq_getElem?_getD, List.getElem?_map, List.getElem?_enum]
  rw [List.getD_eq_getElem?_getD]
  cases hl : positions[v]? with
  | none => rw [List.getElem?_eq_none_iff] at hl; omega
  | some a => simp

theorem deformStep_congr_transforms {models : List (Option TFModel)}
    {transforms transforms2 : List (List ℚ)} {i : ℕ}
    (h : transforms.getD i [] = transforms2.getD i []) (d : ℕ → ℚ) :
    deformStep models transforms d i = deformStep models transforms2 d i := by
  unfold deformStep
  rw [h]

/-- Under the manifest data-model invariant that every slot index has a
joint_map entry, the rebuild loop of lines 231-267 raises nothing and
builds exactly one model entry per slot. -/
theorem buildModelsAux_complete (jm : List (List ℕ))
    (slots : List (Option SlotData)) (i : ℕ)
    (h : i + slots.length ≤ jm.length) :
    (buildModelsAux jm slots i).2 = false ∧
    (buildModelsAux jm slots i).1.length = slots.length := by
  induction slots generalizing i with
  | nil => exact ⟨rfl, rfl⟩
  | cons hd rest ih =>
      have hrec := ih (i + 1) (by simp only [List.length_cons] at h; omega)
      cases hd with
      | none =>
          simp [buildModelsAux, hrec.1, hrec.2]
      | some slot =>
          have hlt : i < jm.length := by simp only [List.length_cons] at h; omega
          have hsome : jm[i]? = some jm[i] := List.getElem?_eq_getElem hlt
          simp [buildModelsAux, hsome, hrec.1, hrec.2]

theorem deformStep_take_models {models : List (Option TFModel)}
    {transforms : List (List ℚ)} {n i : ℕ} (hi : i < n) (d : ℕ → ℚ) :
    deformStep (models.take n) transforms d i = deformStep models transforms d i := by
  unfold deformStep
  by_cases hm : models.length ≤ i
  · rw [if_pos (by simpa using Or.inr hm), if_pos hm]
  · have hlen : ¬ (models.take n).length ≤ i := by
      rw [List.length_take]
      omega
    rw [if_neg hlen, if_neg hm]
    have : (models.take n).getD i none = models.getD i none := by
      rw [List.getD_eq_getElem?_getD, List.getD_eq_getElem?_getD,
        List.getElem?_take_of_lt hi]
    rw [this]

/-! ## Claim theorems -/

/-- C1: the claim states that loading a nonexistent manifest path logs,
leaves the registry with zero loaded models and never raises to the host,
with the evaluation proceeding on zero deltas.  The code does leave the
registry with zero models, but the missing `return` after the existence
check makes `open(path)` raise to the caller and abort the evaluation:
on a filesystem with no files, `loadModels` on a fresh node propagates an
exception (second component `true`) with the model list empty, and a full
node evaluation aborts, leaving the mesh untouched instead of proceeding. -/
theorem loadModels_missing_path_raises :
    (loadModels emptyFS initState "missing.json").2 = true ∧
    (loadModels emptyFS initState "missing.json").1.models = [] ∧
    (evaluateNode emptyFS initState "missing.json" [] 1 (fun _ => 1)
        [⟨1, 2, 3⟩]).2.2 = [⟨1, 2, 3⟩] :=
  ⟨rfl, rfl, rfl⟩

/-- C2: when two joint slots `j < k` both list vertex `v` and both produce
predictions, the final delta buffer entry at `v` equals exactly the
prediction of the higher-indexed slot `k` (at the position of the last
occurrence of `v` in the vertex list of slot `k`): the scatter step is an
unconditional overwrite, never a sum or average.  The hypotheses require
that no slot after `k` lists `v`, so that slot `k` is the last writer. -/
theorem overlap_higher_slot_wins (models : List (Option TFModel))
    (transforms : List (List ℚ)) {j k v p : ℕ} {mj mk : TFModel}
    (_hjk : j < k) (_hmj : models.getD j none = some mj)
    (_hvj : v ∈ mj.vertices)
    (hkt : k < transforms.length) (hkm : k < models.length)
    (hmk : models.getD k none = some mk)
    (hp : p < mk.vertices.length) (hv : mk.vertices.getD p 0 = v)
    (hlast : v ∉ mk.vertices.drop (p + 1))
    (hlater : ∀ i m, k < i → models.getD i none = some m → v ∉ m.vertices)
    {r : ℕ} (hr : r < 3) :
    computeDeltas models transforms (v * 3 + r) =
      (slotPrediction mk (transforms.getD k [])).getD (p * 3 + r) 0 :=
  computeDeltas_last_writer models transforms hkt hkm hmk hp hv hlast hlater hr

/-- Witness for C2: slots 0 and 1 both own vertex 5 and predict `[1,2,3]`
and `[4,5,6]` respectively; the final delta at flat position `5*3` is 4,
the prediction of slot 1, not 1 or 5. -/
theorem overlap_higher_slot_wins_witness :
    computeDeltas [some modelA, some modelB] [[0], [0]] (5 * 3 + 0) = 4 := by
  have h := @overlap_higher_slot_wins [some modelA, some modelB] [[0], [0]]
    0 1 5 0 modelA modelB
    (by decide) rfl (by decide) (by decide) (by decide) rfl
    (by decide) rfl (by decide)
    (by intro i m hi hm
        rw [List.getD_eq_default] at hm
        · cases hm
        · simpa using hi)
    0 (by decide)
  rw [h]
  decide

/-- C3: for every vertex `v` of the mesh, the blender adds exactly
`delta_buffer[3v : 3v+3] * envelope * paint_weight(v)` to the current
position, componentwise and with no clamping or renormalization, and the
added offset is zero — the position is returned unchanged — whenever the
envelope or the paint weight of `v` is zero, for any delta value. -/
theorem blender_formula (models : List (Option TFModel))
    (transforms : List (List ℚ)) (envelope : ℚ) (weights : ℕ → ℚ)
    (positions : List Vec3) {v : ℕ} (h : v < positions.length) :
    (deformMesh models transforms envelope weights positions).getD v ⟨0, 0, 0⟩ =
      { x := (positions.getD v ⟨0, 0, 0⟩).x +
              computeDeltas models transforms (v * 3) * envelope * weights v
        y := (positions.getD v ⟨0, 0, 0⟩).y +
              computeDeltas models transforms (v * 3 + 1) * envelope * weights v
        z := (positions.getD v ⟨0, 0, 0⟩).z +
              computeDeltas models transforms (v * 3 + 2) * envelope * weights v } ∧
    ((envelope = 0 ∨ weights v = 0) →
      (deformMesh models transforms envelope weights positions).getD v ⟨0, 0, 0⟩ =
        positions.getD v ⟨0, 0, 0⟩) := by
  constructor
  · rw [deformMesh_getD models transforms envelope weights positions h]
    rfl
  · intro hz
    rw [deformMesh_getD models transforms envelope weights positions h]
    unfold blendVertex
    rcases hz with hz | hz <;>
      · rw [hz]
        simp

/-- Witness for C3: with a zero envelope the single mesh point is
returned unchanged. -/
theorem blender_formula_witness :
    (0 : ℕ) < 1 ∧
    (deformMesh [] [] 0 (fun _ => 1) [⟨1, 2, 3⟩]).getD 0 ⟨0, 0, 0⟩ = ⟨1, 2, 3⟩ := by
  refine ⟨by decide, ?_⟩
  have h := (blender_formula [] [] 0 (fun _ => 1) [⟨1, 2, 3⟩] (v := 0)
    (by decide)).2 (Or.inl rfl)
  rw [h]
  decide

/-- C4: the claim states that loading the currently cached path is a
no-op that returns the cached state unchanged without re-reading the
manifest.  In the code, `loadModels` resets `data_location` to `None`
and clears the model list before the cached-path comparison, so the
comparison never fires: calling `loadModels` with the cached path on a
state holding one model that owns vertex 1 replaces the registry with
the slot from the manifest (owning vertex 5) — the manifest is re-read — and
when the file has meanwhile disappeared the call raises. -/
theorem loadModels_cached_path_reloads :
    ((loadModels oneFileFS cachedState "manifest.json").1.models.map
        (fun o => o.map TFModel.vertices) = [some [5]]) ∧
    (cachedState.models.map (fun o => o.map TFModel.vertices) = [some [1]]) ∧
    ((loadModels emptyFS cachedState "manifest.json").2 = true) :=
  ⟨rfl, rfl, rfl⟩

/-- C5 counterexample: the claim states that on an axis with
`trans_max = trans_min` the normalized transform is 0.  At translation
component 1 with bounds `max = min = 0`, the division yields +Inf and
`np.nan_to_num` replaces it with the largest finite double, which is not
zero. -/
theorem normalize_transform_degenerate_not_zero :
    (normalize_transform [0, 0, 0, 1, 1, 0, 0] degenModel).getD 4 0 ≠ 0 := by
  unfold normalize_transform normalize_transform_run normalizedTrans setSlice
    degenModel
  norm_num [fdiv, nan_to_num, floatMax]

/-- C5 (amended): on an axis whose bounds satisfy `trans_max = trans_min`,
`normalize_transform` produces 0 exactly when the translation component
equals `trans_min` (the 0/0 NaN is replaced with 0); otherwise the
division yields ±Inf, which `np.nan_to_num` replaces with plus or minus
the largest finite double — not 0. -/
theorem normalize_transform_degenerate_axis
    (qx qy qz qw tx ty tz M0 M1 M2 n0 n1 n2 : ℚ) (model : TFModel)
    (hmax : model.trans_max = [M0, M1, M2])
    (hmin : model.trans_min = [n0, n1, n2]) :
    (M0 = n0 → (normalize_transform [qx, qy, qz, qw, tx, ty, tz] model).getD 4 0 =
      if tx = n0 then 0 else if n0 < tx then floatMax else -floatMax) ∧
    (M1 = n1 → (normalize_transform [qx, qy, qz, qw, tx, ty, tz] model).getD 5 0 =
      if ty = n1 then 0 else if n1 < ty then floatMax else -floatMax) ∧
    (M2 = n2 → (normalize_transform [qx, qy, qz, qw, tx, ty, tz] model).getD 6 0 =
      if tz = n2 then 0 else if n2 < tz then floatMax else -floatMax) := by
  unfold normalize_transform normalize_transform_run normalizedTrans setSlice
  rw [hmax, hmin]
  refine ⟨fun he => ?_, fun he => ?_, fun he => ?_⟩ <;>
    · rw [he]
      norm_num [fdiv, nan_to_num, sub_eq_zero, sub_pos]
      split_ifs <;> simp_all [nan_to_num]

/-- Witness for C5 (amended): evaluated at zero-width bounds with a
translation component of 1. -/
theorem normalize_transform_degenerate_axis_witness :
    (normalize_transform [0, 0, 0, 1, 1, 0, 0] degenModel).getD 4 0 =
      if (1 : ℚ) = 0 then 0 else if (0 : ℚ) < 1 then floatMax else -floatMax :=
  (normalize_transform_degenerate_axis 0 0 0 1 1 0 0 0 0 0 0 0 0 degenModel
    rfl rfl).1 rfl

/-- C6 counterexample: the claim states that neither codec function
modifies its input array.  `normalize_transform` assigns the rescaled
translation into the input array through its reference at line 95: after
calling it on `[0,0,0,1,5,0,0]` with bounds `[0,10]`, the input array
no longer holds its original contents. -/
theorem normalize_transform_mutates_input :
    (normalize_transform_run [0, 0, 0, 1, 5, 0, 0] boundsModel).2 ≠
      [0, 0, 0, 1, 5, 0, 0] := by
  unfold normalize_transform_run normalizedTrans setSlice boundsModel
  norm_num [fdiv, nan_to_num]

/-- C6 (amended): `denormalize_prediction` is pure — it leaves its input
array unchanged and its only effect is the returned value —, while
`normalize_transform` writes the rescaled translation back into its
input array in place, leaving the input equal to the returned array;
neither function touches any other program state. -/
theorem codec_side_effects (array prediction : List ℚ) (m1 m2 : TFModel) :
    (denormalize_prediction_run prediction m1).2 = prediction ∧
    (normalize_transform_run array m2).2 = normalize_transform array m2 :=
  ⟨rfl, rfl⟩

/-- C7: for every 7-component input and non-degenerate bounds,
`normalize_transform` leaves components 0-3 (the rotation quaternion)
exactly unchanged and maps each translation component `t` to
`(t - trans_min) / (trans_max - trans_min)` element-wise — an affine map
of the translation components. -/
theorem normalize_transform_nondegenerate
    (qx qy qz qw tx ty tz M0 M1 M2 n0 n1 n2 : ℚ) (model : TFModel)
    (hmax : model.trans_max = [M0, M1, M2])
    (hmin : model.trans_min = [n0, n1, n2])
    (h0 : M0 ≠ n0) (h1 : M1 ≠ n1) (h2 : M2 ≠ n2) :
    normalize_transform [qx, qy, qz, qw, tx, ty, tz] model =
      [qx, qy, qz, qw,
       (tx - n0) / (M0 - n0), (ty - n1) / (M1 - n1), (tz - n2) / (M2 - n2)] := by
  unfold normalize_transform normalize_transform_run normalizedTrans setSlice
  rw [hmax, hmin]
  norm_num [fdiv, nan_to_num, sub_ne_zero_of_ne h0, sub_ne_zero_of_ne h1,
    sub_ne_zero_of_ne h2]

/-- Witness for C7: bounds `[0,10]` on every axis rescale translation
`(5,6,7)` to `(1/2, 3/5, 7/10)` and pass the rotation through. -/
theorem normalize_transform_nondegenerate_witness :
    normalize_transform [1, 2, 3, 4, 5, 6, 7] boundsModel =
      [1, 2, 3, 4, (5 - 0) / (10 - 0), (6 - 0) / (10 - 0), (7 - 0) / (10 - 0)] :=
  normalize_transform_nondegenerate 1 2 3 4 5 6 7 10 10 10 0 0 0 boundsModel
    rfl rfl (by norm_num) (by norm_num) (by norm_num)

/-- C8: a joint index with no loaded model slot or an empty slot is
skipped and contributes nothing to the delta buffer; transforms in
excess of the loaded model count are ignored; models in excess of the
transform count receive no invocation, so the computed deltas only ever
depend on the first `transforms.length` slots. -/
theorem dispatcher_skip_and_excess :
    (∀ (models : List (Option TFModel)) (transforms : List (List ℚ))
        (d : ℕ → ℚ) (i : ℕ),
      (models.length ≤ i ∨ models.getD i none = none) →
        deformStep models transforms d i = d) ∧
    (∀ (models : List (Option TFModel)) (t1 t2 : List (List ℚ)),
      models.length ≤ t1.length →
        computeDeltas models (t1 ++ t2) = computeDeltas models t1) ∧
    (∀ (models : List (Option TFModel)) (transforms : List (List ℚ)),
      computeDeltas models transforms =
        computeDeltas (models.take transforms.length) transforms) := by
  refine ⟨deformStep_skip, ?_, ?_⟩
  · intro models t1 t2 hlen
    unfold computeDeltas
    rw [List.length_append, List.range_add, List.foldl_append]
    rw [foldl_id_of _ _ (fun i hi e => by
      simp only [List.mem_map, List.mem_range] at hi
      obtain ⟨a, _, rfl⟩ := hi
      exact deformStep_skip models (t1 ++ t2) e _ (Or.inl (by omega)))]
    exact foldl_congr_step _ _ (fun i hi e =>
      deformStep_congr_transforms
        (List.getD_append _ _ _ _ (by simpa using hi)) e)
  · intro models transforms
    unfold computeDeltas
    exact foldl_congr_step _ _ (fun i hi e =>
      (deformStep_take_models (by simpa using hi) e).symm)

/-- Witness for C8: a second transform beyond the single loaded model is
ignored, a step beyond the model count is the identity, and a second
model beyond the single transform receives no invocation. -/
theorem dispatcher_skip_and_excess_witness :
    (deformStep [some modelA] [[0]] (fun _ => 0) 1 = (fun _ => 0)) ∧
    (computeDeltas [some modelA] ([[0]] ++ [[1]]) = computeDeltas [some modelA] [[0]]) ∧
    (computeDeltas [some modelA, some modelB] [[0]] =
      computeDeltas ([some modelA, some modelB].take 1) [[0]]) :=
  ⟨dispatcher_skip_and_excess.1 [some modelA] [[0]] (fun _ => 0) 1
      (Or.inl (by decide)),
   dispatcher_skip_and_excess.2.1 [some modelA] [[0]] [[1]] (by decide),
   dispatcher_skip_and_excess.2.2 [some modelA, some modelB] [[0]]⟩

/-- C9: the cache state machine — the deformer is created dirty; a host
signal on the manifest path attribute (through either callback) sets
dirty; when dirty, the next evaluation replaces the entire model list
from the manifest at the path attribute and clears dirty: for a manifest
satisfying the data-model invariant that the models and joint_map lists
are parallel (equal length — the schema every manifest is required to
obey), the rebuild completes without raising, producing exactly one
entry per slot, never a partial list; a failed load (missing path, or
document without a models collection) leaves the registry empty but
clean; when clean, an evaluation performs no load and leaves the state
untouched, so failures are not retried until the path attribute is
signalled again. -/
theorem cache_state_machine :
    (initState.location_changed = true) ∧
    (∀ s : DeformerState, (preEvaluation s true).location_changed = true) ∧
    (∀ s : DeformerState, (setDependentsDirty s true).location_changed = true) ∧
    (∀ (fs : FileSystem) (s : DeformerState) (path : String)
        (slots : List (Option SlotData)) (jm : List (List ℕ)),
      s.location_changed = true →
      fs path = some { models := some slots, joint_map := jm } →
      slots.length = jm.length →
        evaluateLoad fs s path =
          ({ data_location := some path, location_changed := false,
             models := (buildModels slots jm).1 }, false) ∧
        (buildModels slots jm).1.length = slots.length) ∧
    (∀ (fs : FileSystem) (s : DeformerState) (path : String),
      s.location_changed = true → fs path = none →
        evaluateLoad fs s path =
          ({ data_location := some path, location_changed := false,
             models := [] }, true)) ∧
    (∀ (fs : FileSystem) (s : DeformerState) (path : String)
        (jm : List (List ℕ)),
      s.location_changed = true →
      fs path = some { models := none, joint_map := jm } →
        evaluateLoad fs s path =
          ({ data_location := some path, location_changed := false,
             models := [] }, false)) ∧
    (∀ (fs : FileSystem) (s : DeformerState) (path : String),
      s.location_changed = false → evaluateLoad fs s path = (s, false)) := by
  refine ⟨rfl, fun s => by simp [preEvaluation],
    fun s => by simp [setDependentsDirty], ?_, ?_, ?_, ?_⟩
  · intro fs s path slots jm hd hfs hlen
    have hc := buildModelsAux_complete jm slots 0 (by omega)
    refine ⟨?_, hc.2⟩
    simp [evaluateLoad, loadModels, hd, hfs, buildModels, hc.1]
  · intro fs s path hd hfs
    simp [evaluateLoad, loadModels, hd, hfs]
  · intro fs s path jm hd hfs
    simp [evaluateLoad, loadModels, hd, hfs]
  · intro fs s path hd
    simp [evaluateLoad, hd]

/-- Witness for C9: a dirty fresh node evaluated against an empty
filesystem ends empty but clean (with the exception recorded), a clean
cached node is not reloaded, and a dirty node against the one-file
filesystem (parallel lists of length one) completes a full reload. -/
theorem cache_state_machine_witness :
    evaluateLoad emptyFS initState "missing.json" =
      ({ data_location := some "missing.json", location_changed := false,
         models := [] }, true) ∧
    evaluateLoad emptyFS cachedState "manifest.json" = (cachedState, false) ∧
    evaluateLoad oneFileFS initState "manifest.json" =
      ({ data_location := some "manifest.json", location_changed := false,
         models := (buildModels [some slotB] [[5]]).1 }, false) :=
  ⟨cache_state_machine.2.2.2.2.1 emptyFS initState "missing.json" rfl rfl,
   cache_state_machine.2.2.2.2.2.2 emptyFS cachedState "manifest.json" rfl,
   (cache_state_machine.2.2.2.1 oneFileFS initState "manifest.json"
      [some slotB] [[5]] rfl rfl rfl).1⟩

/-- C10: a vertex that appears in the vertex-index list of no loaded slot
keeps a zero delta — the buffer is freshly zero-initialised and only
listed vertices are written — and its mesh position is left exactly
unchanged by the evaluation, for every envelope and paint weight. -/
theorem unlisted_vertex_unchanged (models : List (Option TFModel))
    (transforms : List (List ℚ)) {v : ℕ}
    (h : ∀ i m, models.getD i none = some m → v ∉ m.vertices) :
    (∀ r, r < 3 → computeDeltas models transforms (v * 3 + r) = 0) ∧
    (∀ (envelope : ℚ) (weights : ℕ → ℚ) (positions : List Vec3),
      v < positions.length →
        (deformMesh models transforms envelope weights positions).getD v ⟨0, 0, 0⟩ =
          positions.getD v ⟨0, 0, 0⟩) := by
  have hz : ∀ r, r < 3 → computeDeltas models transforms (v * 3 + r) = 0 := by
    intro r hr
    unfold computeDeltas
    exact foldl_preserves_point _ _ (fun i _ e =>
      deformStep_preserves_of_not_mem models transforms (h i) hr e)
  refine ⟨hz, fun envelope weights positions hv => ?_⟩
  rw [deformMesh_getD models transforms envelope weights positions hv]
  unfold blendVertex
  have e0 : computeDeltas models transforms (v * 3) = 0 := by
    simpa using hz 0 (by omega)
  have e1 : computeDeltas models transforms (v * 3 + 1) = 0 := hz 1 (by omega)
  have e2 : computeDeltas models transforms (v * 3 + 2) = 0 := hz 2 (by omega)
  rw [e0, e1, e2]
  simp

/-- Witness for C10: with one loaded model owning only vertex 5, vertex 4
has a zero delta and the position of vertex 0 is untouched. -/
theorem unlisted_vertex_unchanged_witness :
    computeDeltas [some modelA] [[0]] (4 * 3 + 0) = 0 ∧
    (deformMesh [some modelA] [[0]] 1 (fun _ => 1) [⟨1, 2, 3⟩]).getD 0 ⟨0, 0, 0⟩ =
      ⟨1, 2, 3⟩ := by
  have hside : ∀ w : ℕ, w ∉ modelA.vertices → ∀ i m,
      List.getD [some modelA] i none = some m → w ∉ m.vertices := by
    intro w hw i m hm
    cases i with
    | zero =>
        simp only [List.getD_cons_zero, Option.some.injEq] at hm
        rw [← hm]
        exact hw
    | succ n => simp at hm
  have h := unlisted_vertex_unchanged (v := 4) [some modelA] [[0]]
    (hside 4 (by decide))
  have h0 := unlisted_vertex_unchanged (v := 0) [some modelA] [[0]]
    (hside 0 (by decide))
  exact ⟨h.1 0 (by decide), h0.2 1 (fun _ => 1) [⟨1, 2, 3⟩] (by decide)⟩

end MLDeform
